import Mathlib

/-!
# check-david: `validate`

A shallow embedding of `src/validate.js`.  The module exports one function,
`validate(name, stableStr, requiredStr, mustBePinned)`, which consults the
`semver` package (an external collaborator) and returns `null` or an advisory
record `{ part, message }`.

* The collaborator is a parameter: a record `Semver` of the six library
  functions the source calls.  Universal theorems hold for every collaborator.
* `nodeSemver` is a concrete collaborator: a model of the `semver` package on
  plain `MAJOR.MINOR.PATCH` versions and on space separated comparator ranges.
  It is used to evaluate `validate` on concrete inputs.
* A JavaScript exception is the `.error` case of `Except`.
-/

namespace CheckDavid

/-! ## Data model -/

/-- The three component names `getMessage` is called with. -/
inductive Part where
  | major
  | minor
  | patch
deriving DecidableEq, Repr

/-- The JavaScript string a component name stands for. -/
def Part.name : Part → String
  | .major => "major"
  | .minor => "minor"
  | .patch => "patch"

/-- The advisory record `{ part, message }`; `part := none` is JavaScript `null`. -/
structure Advisory where
  part : Option String
  message : String
deriving DecidableEq, Repr

deriving instance DecidableEq for Except

/-- The outcome of a call: an exception (`.error`), `null` (`.ok none`) or an
advisory record (`.ok (some a)`). -/
abbrev Outcome := Except String (Option Advisory)

/-- The functions of the `semver` package that `validate.js` calls.
`valid` and `validRange` return a string or `null`.  `major`, `minor` and `patch`
return a number or throw (`new SemVer(s)` throws on a string it cannot read).
`satisfies` returns a boolean; its only call site passes it the result of
`valid` (a normalised version or `null`) and the result of `validRange`. -/
structure Semver where
  valid : String → Option String
  validRange : String → Option String
  satisfies : Option String → String → Bool
  major : String → Except String Nat
  minor : String → Except String Nat
  patch : String → Except String Nat

/-- JavaScript truthiness of a value that is a string or `null`: `null` and the
empty string are falsy. -/
def truthy : Option String → Bool
  | none => false
  | some s => s != ""

/-- The dynamic lookup `semver[part](s)`. -/
def Semver.component (sv : Semver) : Part → String → Except String Nat
  | .major => sv.major
  | .minor => sv.minor
  | .patch => sv.patch

/-! ## The source functions -/

/-- The message of the first branch of `validateRange`. -/
def notPinnedAdvisory (name : String) : Advisory :=
  { part := none, message := "Version for module \"" ++ name ++ "\" is not pinned" }

/-- The message of the second branch of `validateRange`. -/
def outOfRangeAdvisory (name requiredRange : String) : Advisory :=
  { part := none,
    message := "Latest version for module \"" ++ name ++ "\" is out of range \"" ++ requiredRange ++ "\"" }

/-- The record `validate` returns when `requiredStr` is neither a version nor a range. -/
def unparsableAdvisory (name requiredStr : String) : Advisory :=
  { part := none,
    message := "Unparsable semver string for module \"" ++ name ++ "\": \"" ++ requiredStr ++ "\"" }

/-- The record `getMessage(part)` returns when the stable component is greater. -/
def newVersionAdvisory (name stableStr : String) (part : Part) : Advisory :=
  { part := some part.name,
    message := "New " ++ part.name ++ " version available for module \"" ++ name ++ "\" (" ++ stableStr ++ ")" }

/-- `validateRange(name, stable, requiredRange, mustBePinned)`, lines 12-26. -/
def validateRange (sv : Semver) (name : String) (stable : Option String)
    (requiredRange : String) (mustBePinned : Bool) : Option Advisory :=
  if mustBePinned then
    some (notPinnedAdvisory name)
  else if !sv.satisfies stable requiredRange then
    some (outOfRangeAdvisory name requiredRange)
  else
    none

/-- The inner function `getMessage(part)`, lines 61-75: the stable component is
extracted first, then the required one; either extraction may throw. -/
def getMessage (sv : Semver) (name stableStr requiredStr : String) (part : Part) : Outcome :=
  match sv.component part stableStr with
  | .error e => .error e
  | .ok s =>
    match sv.component part requiredStr with
    | .error e => .error e
    | .ok r =>
      if s > r then .ok (some (newVersionAdvisory name stableStr part)) else .ok none

/-- JavaScript `a || b` on outcomes: a record is truthy, `null` is falsy, and an
exception raised by `a` propagates; `b` is looked at only when `a` is `null`. -/
def orElse (a b : Outcome) : Outcome :=
  match a with
  | .error e => .error e
  | .ok (some x) => .ok (some x)
  | .ok none => b

/-- The exported function `validate`, lines 39-78. -/
def validate (sv : Semver) (name stableStr requiredStr : String) (mustBePinned : Bool) :
    Outcome :=
  let stable := sv.valid stableStr
  let required := sv.valid requiredStr
  let range := sv.validRange requiredStr
  if !truthy required then
    match range with
    | some r =>
      if r != "" then .ok (validateRange sv name stable r mustBePinned)
      else .ok (some (unparsableAdvisory name requiredStr))
    | none => .ok (some (unparsableAdvisory name requiredStr))
  else
    orElse
      (orElse
        (orElse (getMessage sv name stableStr requiredStr .major)
          (getMessage sv name stableStr requiredStr .minor))
        (getMessage sv name stableStr requiredStr .patch))
      (.ok none)

/-! ## A concrete collaborator

A model of the `semver` package (strict mode, major version 5) on a fragment of
its input language, written over character lists with structural recursion so
that it evaluates inside the logic.

* Versions: `v?MAJOR.MINOR.PATCH`, each component `0` or a digit string without
  a leading zero, at most `MAX_SAFE_INTEGER`; the string at most `MAX_LENGTH`
  UTF-16 code units long.
* Ranges: one or more items separated by single blanks, each one of the
  operators `^ ~ >= <= > < =` (or none) followed by a version of the fragment.

On the fragment the model answers as the package does.  A string outside the
fragment is answered as the package answers a string it cannot read (`null`
from `valid` and `validRange`, a `TypeError` from `major`, `minor`, `patch`);
the package itself reads more than the fragment: prerelease and build suffixes,
surrounding blanks, hyphen ranges, x-ranges, shortened versions, `*`, the empty
range and `||`.  Later major versions of the package print the upper bound of
a caret range as `<2.0.0-0` where this one prints `<2.0.0`.
-/

/-- A parsed version of the fragment. -/
structure Version where
  major : Nat
  minor : Nat
  patch : Nat
deriving DecidableEq, Repr

/-- The package's constant `MAX_SAFE_INTEGER`, the bound on a component. -/
def MAX_SAFE_INTEGER : Nat := 9007199254740991

/-- The package's constant `MAX_LENGTH`, the bound on the length of a version. -/
def MAX_LENGTH : Nat := 256

/-- Split a character list at every occurrence of `sep`. -/
def splitAt (sep : Char) : List Char → List (List Char)
  | [] => [[]]
  | c :: cs =>
    if c = sep then [] :: splitAt sep cs
    else
      match splitAt sep cs with
      | [] => [[c]]
      | w :: ws => (c :: w) :: ws

/-- The number a string of decimal digits denotes. -/
def digitsValue (cs : List Char) : Nat :=
  cs.foldl (fun acc c => 10 * acc + (c.toNat - 48)) 0

/-- The package's `NUMERICIDENTIFIER`, `0|[1-9]\d*`, as the number it denotes. -/
def numericIdentifier (cs : List Char) : Option Nat :=
  match cs with
  | [] => none
  | c :: rest =>
    if (c :: rest).all Char.isDigit && (c != '0' || rest.isEmpty) then
      some (digitsValue (c :: rest))
    else none

/-- The package's `MAINVERSION`: three numeric identifiers separated by dots. -/
def matchMain (cs : List Char) : Option (Nat × Nat × Nat) :=
  match splitAt '.' cs with
  | [a, b, c] =>
    match numericIdentifier a, numericIdentifier b, numericIdentifier c with
    | some x, some y, some z => some (x, y, z)
    | _, _, _ => none
  | _ => none

/-- The package's `FULL` pattern on the fragment: an optional `v`, then the
main version. -/
def matchFull (cs : List Char) : Option (Nat × Nat × Nat) :=
  match cs with
  | 'v' :: rest => matchMain rest
  | _ => matchMain cs

/-- The checks of the `SemVer` constructor after the pattern has matched. -/
def checkComponents (m : Nat × Nat × Nat) : Except String Version :=
  if m.1 > MAX_SAFE_INTEGER then .error "Invalid major version"
  else if m.2.1 > MAX_SAFE_INTEGER then .error "Invalid minor version"
  else if m.2.2 > MAX_SAFE_INTEGER then .error "Invalid patch version"
  else .ok { major := m.1, minor := m.2.1, patch := m.2.2 }

/-- The `length` of a JavaScript string: its number of UTF-16 code units, two
for a character outside the basic plane. -/
def utf16Length (s : String) : Nat :=
  s.data.foldl (fun n c => n + (if c.toNat < 65536 then 1 else 2)) 0

/-- The package's `new SemVer(version)` in strict mode, on the fragment: the
parsed version, or the `TypeError` the constructor throws. -/
def construct (s : String) : Except String Version :=
  if utf16Length s > MAX_LENGTH then
    .error ("version is longer than " ++ toString MAX_LENGTH ++ " characters")
  else
    match matchFull s.data with
    | none => .error ("Invalid Version: " ++ s)
    | some m => checkComponents m

/-- A version inside a comparator, read from a character list. -/
def parseVersionChars (cs : List Char) : Option Version :=
  match matchFull cs with
  | none => none
  | some m =>
    match checkComponents m with
    | .ok v => some v
    | .error _ => none

/-- The package's `parse(version)`: the constructed object, or `null` when the
constructor throws. -/
def parseVersion (s : String) : Option Version :=
  match construct s with
  | .ok v => some v
  | .error _ => none

/-- The `version` field of a `SemVer` object: the normalised string. -/
def Version.format (v : Version) : String :=
  toString v.major ++ "." ++ toString v.minor ++ "." ++ toString v.patch

/-- The comparison operators of a comparator; `eq` is the empty operator. -/
inductive Op where
  | eq
  | lt
  | le
  | gt
  | ge
deriving DecidableEq, Repr

/-- A comparator: an operator and the version it compares with. -/
structure Comparator where
  op : Op
  version : Version
deriving DecidableEq, Repr

/-- The package's `compare`: major, then minor, then patch. -/
def Version.lt (a b : Version) : Bool :=
  decide (a.major < b.major)
    || (a.major == b.major && (decide (a.minor < b.minor)
      || (a.minor == b.minor && decide (a.patch < b.patch))))

/-- The package's `Comparator.prototype.test`. -/
def Comparator.test (c : Comparator) (v : Version) : Bool :=
  match c.op with
  | .eq => v == c.version
  | .lt => v.lt c.version
  | .le => !(c.version.lt v)
  | .gt => c.version.lt v
  | .ge => !(v.lt c.version)

/-- The string a comparator is printed as (its `value` field). -/
def Comparator.format (c : Comparator) : String :=
  (match c.op with
    | .eq => ""
    | .lt => "<"
    | .le => "<="
    | .gt => ">"
    | .ge => ">=") ++ c.version.format

/-- The two comparators a caret or tilde range is rewritten to, `>=lower` and
`<upper`.  The package prints the upper bound and reads it back with the
`SemVer` constructor, which rejects a component above `MAX_SAFE_INTEGER`; the
range is then not readable. -/
def bounded (lower : Version) (upper : Nat × Nat × Nat) : Option (List Comparator) :=
  match checkComponents upper with
  | .ok u => some [⟨.ge, lower⟩, ⟨.lt, u⟩]
  | .error _ => none

/-- The package's `replaceCaret` on a full version. -/
def caret (v : Version) : Option (List Comparator) :=
  if v.major = 0 then
    if v.minor = 0 then bounded v (0, 0, v.patch + 1)
    else bounded v (0, v.minor + 1, 0)
  else bounded v (v.major + 1, 0, 0)

/-- The package's `replaceTilde` on a full version. -/
def tilde (v : Version) : Option (List Comparator) :=
  bounded v (v.major, v.minor + 1, 0)

/-- One blank-free item of a range: a caret or tilde range or a comparator,
as the comparators it stands for. -/
def parseItem (cs : List Char) : Option (List Comparator) :=
  match cs with
  | '^' :: rest => (parseVersionChars rest).bind caret
  | '~' :: rest => (parseVersionChars rest).bind tilde
  | '>' :: '=' :: rest => (parseVersionChars rest).map (fun v => [⟨.ge, v⟩])
  | '<' :: '=' :: rest => (parseVersionChars rest).map (fun v => [⟨.le, v⟩])
  | '>' :: rest => (parseVersionChars rest).map (fun v => [⟨.gt, v⟩])
  | '<' :: rest => (parseVersionChars rest).map (fun v => [⟨.lt, v⟩])
  | '=' :: rest => (parseVersionChars rest).map (fun v => [⟨.eq, v⟩])
  | _ => (parseVersionChars cs).map (fun v => [⟨.eq, v⟩])

/-- Every item of a list parsed, or `none` when one of them is not readable. -/
def parseItems : List (List Char) → Option (List Comparator)
  | [] => some []
  | it :: its =>
    match parseItem it, parseItems its with
    | some cs, some ds => some (cs ++ ds)
    | _, _ => none

/-- The package's `new Range(range)` on the fragment: the comparator set. -/
def parseRange (s : String) : Option (List Comparator) :=
  parseItems (splitAt ' ' s.data)

/-- The `range` field of a `Range` object: its comparators joined by blanks. -/
def formatRange (cs : List Comparator) : String :=
  " ".intercalate (cs.map Comparator.format)

/-- The model of the `semver` package: `valid(s)` is the normalised string of
`parse(s)`, `validRange(s)` the printed comparator set of `new Range(s)`,
`satisfies(v, r)` is false for a missing or unreadable version or range and
otherwise tests every comparator, and `major`, `minor`, `patch` read a field of
`new SemVer(s)`. -/
def nodeSemver : Semver where
  valid s := (parseVersion s).map Version.format
  validRange s := (parseRange s).map formatRange
  satisfies version range :=
    match version with
    | none => false
    | some v =>
      match parseVersion v, parseRange range with
      | some ver, some cs => cs.all (fun c => c.test ver)
      | _, _ => false
  major s := (construct s).map Version.major
  minor s := (construct s).map Version.minor
  patch s := (construct s).map Version.patch

/-! ## Vocabulary of the specification -/

/-- The string is a valid exact version: the test `validate` performs on
`semver.valid(s)`. -/
def isValidVersion (sv : Semver) (s : String) : Bool :=
  truthy (sv.valid s)

/-- The string is a valid range: the test `validate` performs on
`semver.validRange(s)`. -/
def isValidRange (sv : Semver) (s : String) : Bool :=
  truthy (sv.validRange s)

/-- The contract of the collaborator that the exact-version path relies on:
the components of a string accepted by `valid` can be extracted (`valid` and
the three accessors read the string with the same `SemVer` constructor). -/
def Semver.Lawful (sv : Semver) : Prop :=
  ∀ s, isValidVersion sv s = true →
    ∃ a b c, sv.major s = .ok a ∧ sv.minor s = .ok b ∧ sv.patch s = .ok c

/-- The component `p` of `stableStr` is strictly greater than that of
`requiredStr` (both extracted by the collaborator). -/
def exceeds (sv : Semver) (p : Part) (stableStr requiredStr : String) : Bool :=
  match sv.component p stableStr, sv.component p requiredStr with
  | .ok a, .ok b => decide (b < a)
  | _, _ => false

/-- Following the specification: the first component, in the order major,
minor, patch, whose stable value is strictly greater than its required value. -/
def firstExceeding (s r : Part → Nat) : Option Part :=
  [Part.major, Part.minor, Part.patch].find? (fun p => decide (r p < s p))

/-- Following the specification: `s` is strictly newer than `r` in
semantic-version precedence, the lexicographic order on major, minor, patch. -/
def strictlyNewer (s r : Part → Nat) : Bool :=
  decide (r .major < s .major)
    || (r .major == s .major && (decide (r .minor < s .minor)
      || (r .minor == s .minor && decide (r .patch < s .patch))))

/-- The components the collaborator extracts from a string, `0` where the
extraction throws. -/
def componentsOf (sv : Semver) (s : String) : Part → Nat :=
  fun p =>
    match sv.component p s with
    | .ok n => n
    | .error _ => 0

/-- What an outcome shows once the message text is dropped: the exception,
`null`, or the `part` of the advisory. -/
def partOf : Outcome → Except String (Option (Option String))
  | .error e => .error e
  | .ok none => .ok none
  | .ok (some a) => .ok (some a.part)

/-! ## Lemmas -/

theorem nodeSemver_lawful : nodeSemver.Lawful := by
  intro s h
  simp only [isValidVersion, nodeSemver, parseVersion] at h
  simp only [nodeSemver]
  cases hp : construct s with
  | error e => simp [hp, truthy] at h
  | ok v => exact ⟨v.major, v.minor, v.patch, rfl, rfl, rfl⟩

theorem component_of_valid {sv : Semver} (hsv : sv.Lawful) {s : String}
    (h : isValidVersion sv s = true) :
    ∃ f : Part → Nat, ∀ p, sv.component p s = .ok (f p) := by
  obtain ⟨a, b, c, ha, hb, hc⟩ := hsv s h
  refine ⟨fun p => match p with | .major => a | .minor => b | .patch => c, ?_⟩
  intro p
  cases p <;> simp [Semver.component, ha, hb, hc]

theorem getMessage_of_components {sv : Semver} {name stableStr requiredStr : String}
    {p : Part} {a b : Nat} (hs : sv.component p stableStr = .ok a)
    (hr : sv.component p requiredStr = .ok b) :
    getMessage sv name stableStr requiredStr p
      = if b < a then .ok (some (newVersionAdvisory name stableStr p)) else .ok none := by
  simp [getMessage, hs, hr]

theorem validate_of_valid {sv : Semver} {name stableStr requiredStr : String}
    {mustBePinned : Bool} (h : isValidVersion sv requiredStr = true) :
    validate sv name stableStr requiredStr mustBePinned
      = orElse
          (orElse
            (orElse (getMessage sv name stableStr requiredStr .major)
              (getMessage sv name stableStr requiredStr .minor))
            (getMessage sv name stableStr requiredStr .patch))
          (.ok none) := by
  simp only [isValidVersion] at h
  simp [validate, h]

theorem validate_of_not_valid {sv : Semver} {name stableStr requiredStr : String}
    {mustBePinned : Bool} (h : isValidVersion sv requiredStr = false) :
    validate sv name stableStr requiredStr mustBePinned
      = if isValidRange sv requiredStr = true then
          .ok (validateRange sv name (sv.valid stableStr)
            ((sv.validRange requiredStr).getD "") mustBePinned)
        else .ok (some (unparsableAdvisory name requiredStr)) := by
  simp only [isValidVersion] at h
  unfold validate isValidRange
  simp only [h, Bool.not_false, if_true]
  split
  · rename_i r hr
    by_cases hne : r = ""
    · simp [truthy, hne, hr]
    · simp [truthy, hne, hr]
  · rename_i hr
    simp [truthy, hr]

theorem getMessage_exceeds {sv : Semver} {name stableStr requiredStr : String} {p : Part} :
    (getMessage sv name stableStr requiredStr p = .ok none →
        exceeds sv p stableStr requiredStr = false) ∧
    (∀ a, getMessage sv name stableStr requiredStr p = .ok (some a) →
        exceeds sv p stableStr requiredStr = true ∧
          a = newVersionAdvisory name stableStr p) := by
  unfold getMessage exceeds
  cases sv.component p stableStr with
  | error e => simp
  | ok x =>
    cases sv.component p requiredStr with
    | error e => simp
    | ok y =>
      by_cases hlt : y < x
      · simp [hlt]
      · simp [hlt]

theorem getMessage_of_exceeds {sv : Semver} {name stableStr requiredStr : String} {p : Part}
    (h : exceeds sv p stableStr requiredStr = true) :
    getMessage sv name stableStr requiredStr p
      = .ok (some (newVersionAdvisory name stableStr p)) := by
  unfold exceeds at h
  unfold getMessage
  cases hx : sv.component p stableStr with
  | error e => simp [hx] at h
  | ok x =>
    cases hy : sv.component p requiredStr with
    | error e => simp [hx, hy] at h
    | ok y =>
      simp only [hx, hy, decide_eq_true_eq] at h
      simp [h]

theorem validate_throws_of_major_throws {sv : Semver} {name stableStr requiredStr : String}
    {mustBePinned : Bool} {e : String} (hr : isValidVersion sv requiredStr = true)
    (hs : sv.major stableStr = .error e) :
    validate sv name stableStr requiredStr mustBePinned = .error e := by
  rw [validate_of_valid hr]
  simp [getMessage, Semver.component, hs, orElse]

theorem validate_nonnull_of_strictlyNewer {sv : Semver} {name stableStr requiredStr : String}
    {mustBePinned : Bool} {s r : Part → Nat}
    (hs : ∀ p, sv.component p stableStr = .ok (s p))
    (hr : ∀ p, sv.component p requiredStr = .ok (r p))
    (hv : isValidVersion sv requiredStr = true) (hnew : strictlyNewer s r = true) :
    ∃ a, validate sv name stableStr requiredStr mustBePinned = .ok (some a) := by
  rw [validate_of_valid hv, getMessage_of_components (hs .major) (hr .major),
    getMessage_of_components (hs .minor) (hr .minor),
    getMessage_of_components (hs .patch) (hr .patch)]
  simp only [strictlyNewer, Bool.or_eq_true, Bool.and_eq_true, decide_eq_true_eq,
    beq_iff_eq] at hnew
  by_cases h1 : r .major < s .major
  · exact ⟨newVersionAdvisory name stableStr .major, by simp [h1, orElse]⟩
  · by_cases h2 : r .minor < s .minor
    · exact ⟨newVersionAdvisory name stableStr .minor, by simp [h1, h2, orElse]⟩
    · have h3 : r .patch < s .patch := by
        rcases hnew with h | ⟨_, h | ⟨_, h⟩⟩
        · exact absurd h h1
        · exact absurd h h2
        · exact h
      exact ⟨newVersionAdvisory name stableStr .patch, by simp [h1, h2, h3, orElse]⟩

/-! ## Claims -/

/-- C1: when `requiredStr` is a valid exact version and `stableStr` is a valid
version, `validate` returns the record `{ part: p, message: 'New p version
available for module "name" (stableStr)' }` for the first component p, in the
order major, minor, patch, whose stable value is strictly greater than its
required value, and `null` when there is no such component.  The record is
spelled out for each of the three components, and once more for the component
`firstExceeding` selects. -/
theorem validate_exact_first_exceeding (sv : Semver) (hsv : sv.Lawful)
    (name stableStr requiredStr : String) (mustBePinned : Bool)
    (hs : isValidVersion sv stableStr = true) (hr : isValidVersion sv requiredStr = true) :
    ∃ s r : Part → Nat,
      (∀ p, sv.component p stableStr = .ok (s p)) ∧
      (∀ p, sv.component p requiredStr = .ok (r p)) ∧
      (r .major < s .major →
        validate sv name stableStr requiredStr mustBePinned
          = .ok (some { part := some "major",
                        message := "New major version available for module \"" ++ name
                          ++ "\" (" ++ stableStr ++ ")" })) ∧
      (s .major ≤ r .major → r .minor < s .minor →
        validate sv name stableStr requiredStr mustBePinned
          = .ok (some { part := some "minor",
                        message := "New minor version available for module \"" ++ name
                          ++ "\" (" ++ stableStr ++ ")" })) ∧
      (s .major ≤ r .major → s .minor ≤ r .minor → r .patch < s .patch →
        validate sv name stableStr requiredStr mustBePinned
          = .ok (some { part := some "patch",
                        message := "New patch version available for module \"" ++ name
                          ++ "\" (" ++ stableStr ++ ")" })) ∧
      (s .major ≤ r .major → s .minor ≤ r .minor → s .patch ≤ r .patch →
        validate sv name stableStr requiredStr mustBePinned = .ok none) ∧
      validate sv name stableStr requiredStr mustBePinned
        = .ok (match firstExceeding s r with
            | some .major =>
              some { part := some "major",
                     message := "New major version available for module \"" ++ name
                       ++ "\" (" ++ stableStr ++ ")" }
            | some .minor =>
              some { part := some "minor",
                     message := "New minor version available for module \"" ++ name
                       ++ "\" (" ++ stableStr ++ ")" }
            | some .patch =>
              some { part := some "patch",
                     message := "New patch version available for module \"" ++ name
                       ++ "\" (" ++ stableStr ++ ")" }
            | none => none) := by
  obtain ⟨s, hs⟩ := component_of_valid hsv hs
  obtain ⟨r, hr2⟩ := component_of_valid hsv hr
  refine ⟨s, r, hs, hr2, ?_⟩
  rw [validate_of_valid hr, getMessage_of_components (hs .major) (hr2 .major),
    getMessage_of_components (hs .minor) (hr2 .minor),
    getMessage_of_components (hs .patch) (hr2 .patch)]
  simp only [firstExceeding, List.find?]
  by_cases h1 : r .major < s .major
  · have h1n : ¬ s .major ≤ r .major := Nat.not_le_of_lt h1
    simp [h1, h1n, orElse, newVersionAdvisory, Part.name]
  · have h1n : s .major ≤ r .major := Nat.le_of_not_lt h1
    by_cases h2 : r .minor < s .minor
    · have h2n : ¬ s .minor ≤ r .minor := Nat.not_le_of_lt h2
      simp [h1, h1n, h2, h2n, orElse, newVersionAdvisory, Part.name]
    · have h2n : s .minor ≤ r .minor := Nat.le_of_not_lt h2
      by_cases h3 : r .patch < s .patch
      · have h3n : ¬ s .patch ≤ r .patch := Nat.not_le_of_lt h3
        simp [h1, h1n, h2, h2n, h3, h3n, orElse, newVersionAdvisory, Part.name]
      · have h3n : s .patch ≤ r .patch := Nat.le_of_not_lt h3
        simp [h1, h1n, h2, h2n, h3, h3n, orElse]

theorem validate_exact_first_exceeding_witness :
    validate nodeSemver "foo" "1.3.0" "1.2.0" false
        = .ok (some { part := some "minor",
                      message := "New minor version available for module \"foo\" (1.3.0)" }) ∧
    validate nodeSemver "foo" "1.2.3" "1.2.3" true = .ok none := by
  constructor
  · obtain ⟨s, r, hs, hr, _, hminor, _, _, _⟩ :=
      validate_exact_first_exceeding nodeSemver nodeSemver_lawful "foo" "1.3.0" "1.2.0" false
        (by decide) (by decide)
    have sM : s .major = 1 := Except.ok.inj ((hs .major).symm.trans (by decide))
    have rM : r .major = 1 := Except.ok.inj ((hr .major).symm.trans (by decide))
    have sm : s .minor = 3 := Except.ok.inj ((hs .minor).symm.trans (by decide))
    have rm : r .minor = 2 := Except.ok.inj ((hr .minor).symm.trans (by decide))
    exact hminor (by omega) (by omega)
  · obtain ⟨s, r, hs, hr, _, _, _, hnone, _⟩ :=
      validate_exact_first_exceeding nodeSemver nodeSemver_lawful "foo" "1.2.3" "1.2.3" true
        (by decide) (by decide)
    have hsr : ∀ p, s p = r p := fun p => Except.ok.inj ((hs p).symm.trans (hr p))
    exact hnone (Nat.le_of_eq (hsr .major)) (Nat.le_of_eq (hsr .minor))
      (Nat.le_of_eq (hsr .patch))

/-- C2: on every input on which `validate` returns, the result is `null` if and
only if either `requiredStr` is a valid exact version and no component of
`stableStr` exceeds that of `requiredStr`, or `requiredStr` is not an exact
version but a valid range, `mustBePinned` is false and the stable version
satisfies the range. -/
theorem validate_null_iff (sv : Semver) (name stableStr requiredStr : String)
    (mustBePinned : Bool) (res : Option Advisory)
    (h : validate sv name stableStr requiredStr mustBePinned = .ok res) :
    res = none ↔
      ((isValidVersion sv requiredStr = true ∧
          ∀ p, exceeds sv p stableStr requiredStr = false) ∨
       (isValidVersion sv requiredStr = false ∧ isValidRange sv requiredStr = true ∧
          mustBePinned = false ∧
          ∃ range, sv.validRange requiredStr = some range ∧
            sv.satisfies (sv.valid stableStr) range = true)) := by
  cases hv : isValidVersion sv requiredStr with
  | true =>
    rw [validate_of_valid hv] at h
    have hM := @getMessage_exceeds sv name stableStr requiredStr .major
    have hm := @getMessage_exceeds sv name stableStr requiredStr .minor
    have hp := @getMessage_exceeds sv name stableStr requiredStr .patch
    simp only [false_and, or_false, true_and, Bool.true_eq_false]
    rcases hgM : getMessage sv name stableStr requiredStr .major with e | (_ | a)
    · simp [hgM, orElse] at h
    · rcases hgm : getMessage sv name stableStr requiredStr .minor with e | (_ | a)
      · simp [hgM, hgm, orElse] at h
      · rcases hgp : getMessage sv name stableStr requiredStr .patch with e | (_ | a)
        · simp [hgM, hgm, hgp, orElse] at h
        · simp only [hgM, hgm, hgp, orElse, Except.ok.injEq] at h
          subst h
          simp only [true_iff]
          intro p
          cases p
          · exact hM.1 hgM
          · exact hm.1 hgm
          · exact hp.1 hgp
        · simp only [hgM, hgm, hgp, orElse, Except.ok.injEq] at h
          subst h
          have := (hp.2 a hgp).1
          constructor
          · intro h0; cases h0
          · intro h0; rw [h0 .patch] at this; cases this
      · simp only [hgM, hgm, orElse, Except.ok.injEq] at h
        subst h
        have := (hm.2 a hgm).1
        constructor
        · intro h0; cases h0
        · intro h0; rw [h0 .minor] at this; cases this
    · simp only [hgM, orElse, Except.ok.injEq] at h
      subst h
      have := (hM.2 a hgM).1
      constructor
      · intro h0; cases h0
      · intro h0; rw [h0 .major] at this; cases this
  | false =>
    rw [validate_of_not_valid hv] at h
    simp only [false_and, false_or, true_and, Bool.false_eq_true]
    cases hr : isValidRange sv requiredStr with
    | false =>
      simp only [hr, Bool.false_eq_true, if_false, Except.ok.injEq] at h
      subst h
      simp
    | true =>
      simp only [hr, if_true, Except.ok.injEq] at h
      subst h
      have hsome : ∃ range, sv.validRange requiredStr = some range := by
        unfold isValidRange at hr
        cases hx : sv.validRange requiredStr with
        | none => simp [hx, truthy] at hr
        | some r => exact ⟨r, rfl⟩
      obtain ⟨range, hrange⟩ := hsome
      simp only [hrange, Option.getD_some, Option.some.injEq, exists_eq_left', true_and]
      cases mustBePinned <;> cases hsat : sv.satisfies (sv.valid stableStr) range <;>
        simp [validateRange, hsat]

theorem validate_null_iff_witness :
    (none : Option Advisory) = none ↔
      ((isValidVersion nodeSemver "^1.0.0" = true ∧
          ∀ p, exceeds nodeSemver p "1.2.3" "^1.0.0" = false) ∨
       (isValidVersion nodeSemver "^1.0.0" = false ∧ isValidRange nodeSemver "^1.0.0" = true ∧
          false = false ∧
          ∃ range, nodeSemver.validRange "^1.0.0" = some range ∧
            nodeSemver.satisfies (nodeSemver.valid "1.2.3") range = true)) :=
  validate_null_iff nodeSemver "foo" "1.2.3" "^1.0.0" false none (by decide)

/-- C3: if `requiredStr` is a valid range but not a valid exact version and
`mustBePinned` is true, `validate` returns the "is not pinned" advisory with
`part` null, whether or not the stable version satisfies the range. -/
theorem validate_not_pinned (sv : Semver) (name stableStr requiredStr : String)
    (hv : isValidVersion sv requiredStr = false) (hr : isValidRange sv requiredStr = true) :
    validate sv name stableStr requiredStr true
      = .ok (some { part := none,
                    message := "Version for module \"" ++ name ++ "\" is not pinned" }) := by
  rw [validate_of_not_valid hv]
  simp [hr, validateRange, notPinnedAdvisory]

theorem validate_not_pinned_witness :
    validate nodeSemver "foo" "1.2.3" "^1.0.0" true
      = .ok (some { part := none, message := "Version for module \"foo\" is not pinned" }) :=
  validate_not_pinned nodeSemver "foo" "1.2.3" "^1.0.0" (by decide) (by decide)

/-- C4 (counterexample): for `validate("foo", "2.0.0", "^1.0.0", false)` the
required string is a valid range and not an exact version and the stable
version is out of range, yet the message quotes `>=1.0.0 <2.0.0`, the string
`semver.validRange` returns, and not the required string `^1.0.0`. -/
theorem validate_out_of_range_quotes_required_counterexample :
    isValidVersion nodeSemver "^1.0.0" = false ∧
    isValidRange nodeSemver "^1.0.0" = true ∧
    nodeSemver.validRange "^1.0.0" = some ">=1.0.0 <2.0.0" ∧
    nodeSemver.satisfies (nodeSemver.valid "2.0.0") ">=1.0.0 <2.0.0" = false ∧
    validate nodeSemver "foo" "2.0.0" "^1.0.0" false
      = .ok (some { part := none,
                    message := "Latest version for module \"foo\" is out of range \">=1.0.0 <2.0.0\"" }) ∧
    validate nodeSemver "foo" "2.0.0" "^1.0.0" false
      ≠ .ok (some { part := none,
                    message := "Latest version for module \"foo\" is out of range \"^1.0.0\"" }) := by
  refine ⟨by decide, by decide, by decide, by decide, by decide, by decide⟩

/-- C4 (amended): when `requiredStr` is a valid range and not an exact version,
`mustBePinned` is false and the stable version does not satisfy the range,
`validate` returns the "out of range" advisory with `part` null, and the range
quoted in the message is the string `semver.validRange(requiredStr)` returns. -/
theorem validate_out_of_range (sv : Semver) (name stableStr requiredStr range : String)
    (hv : isValidVersion sv requiredStr = false) (hr : isValidRange sv requiredStr = true)
    (hrange : sv.validRange requiredStr = some range)
    (hsat : sv.satisfies (sv.valid stableStr) range = false) :
    validate sv name stableStr requiredStr false
      = .ok (some { part := none,
                    message := "Latest version for module \"" ++ name
                      ++ "\" is out of range \"" ++ range ++ "\"" }) := by
  rw [validate_of_not_valid hv]
  simp [hr, hrange, validateRange, hsat, outOfRangeAdvisory]

theorem validate_out_of_range_witness :
    validate nodeSemver "foo" "2.0.0" "^1.0.0" false
      = .ok (some { part := none,
                    message := "Latest version for module \"" ++ "foo"
                      ++ "\" is out of range \"" ++ ">=1.0.0 <2.0.0" ++ "\"" }) :=
  validate_out_of_range nodeSemver "foo" "2.0.0" "^1.0.0" ">=1.0.0 <2.0.0"
    (by decide) (by decide) (by decide) (by decide)

/-- C5: if `requiredStr` is neither a valid exact version nor a valid range,
`validate` returns the "Unparsable semver string" advisory with `part` null,
for every name, every `stableStr` (valid or not) and every `mustBePinned`. -/
theorem validate_unparsable (sv : Semver) (name stableStr requiredStr : String)
    (mustBePinned : Bool)
    (hv : isValidVersion sv requiredStr = false) (hr : isValidRange sv requiredStr = false) :
    validate sv name stableStr requiredStr mustBePinned
      = .ok (some { part := none,
                    message := "Unparsable semver string for module \"" ++ name
                      ++ "\": \"" ++ requiredStr ++ "\"" }) := by
  rw [validate_of_not_valid hv]
  simp [hr, unparsableAdvisory]

theorem validate_unparsable_witness :
    validate nodeSemver "foo" "1.2.3" "git@github.com:x/y" false
      = .ok (some { part := none,
                    message := "Unparsable semver string for module \"" ++ "foo"
                      ++ "\": \"" ++ "git@github.com:x/y" ++ "\"" }) :=
  validate_unparsable nodeSemver "foo" "1.2.3" "git@github.com:x/y" false
    (by decide) (by decide)

/-- C6 (the code at the failing input): `validate("foo", "1.2", "1.2.3", false)`
throws.  `1.2` is not a valid version, `1.2.3` is a valid exact version, and
`semver.major("1.2")` raises `Invalid Version: 1.2`, which `validate` does not
catch. -/
theorem validate_throws_on_invalid_stable :
    isValidVersion nodeSemver "1.2" = false ∧
    isValidVersion nodeSemver "1.2.3" = true ∧
    validate nodeSemver "foo" "1.2" "1.2.3" false = .error "Invalid Version: 1.2" :=
  ⟨by decide, by decide, validate_throws_of_major_throws (by decide) (by decide)⟩

/-- C7: for every valid exact version `v`, `validate(name, v, v, mustBePinned)`
returns `null`. -/
theorem validate_same_version (sv : Semver) (hsv : sv.Lawful) (name v : String)
    (mustBePinned : Bool) (hv : isValidVersion sv v = true) :
    validate sv name v v mustBePinned = .ok none := by
  obtain ⟨f, hf⟩ := component_of_valid hsv hv
  rw [validate_of_valid hv, getMessage_of_components (hf .major) (hf .major),
    getMessage_of_components (hf .minor) (hf .minor),
    getMessage_of_components (hf .patch) (hf .patch)]
  simp [orElse]

theorem validate_same_version_witness :
    validate nodeSemver "foo" "1.2.3" "1.2.3" false = .ok none :=
  validate_same_version nodeSemver nodeSemver_lawful "foo" "1.2.3" false (by decide)

/-- C8: if `requiredStr` is a valid exact version and the major component of
`stableStr` is strictly greater than that of `requiredStr`, `validate` returns
the "New major version available" advisory, whose `part` is `"major"`, whatever
the minor and patch components are. -/
theorem validate_major_wins (sv : Semver) (name stableStr requiredStr : String)
    (mustBePinned : Bool) (hr : isValidVersion sv requiredStr = true)
    (hgt : exceeds sv .major stableStr requiredStr = true) :
    validate sv name stableStr requiredStr mustBePinned
        = .ok (some (newVersionAdvisory name stableStr .major)) ∧
      (newVersionAdvisory name stableStr .major).part = some "major" := by
  rw [validate_of_valid hr, getMessage_of_exceeds hgt]
  exact ⟨rfl, rfl⟩

theorem validate_major_wins_witness :
    (validate nodeSemver "foo" "2.0.0" "1.9.9" false
        = .ok (some (newVersionAdvisory "foo" "2.0.0" .major)) ∧
      (newVersionAdvisory "foo" "2.0.0" .major).part = some "major") ∧
    (validate nodeSemver "foo" "2.0.0" "1.5.0" false
        = .ok (some (newVersionAdvisory "foo" "2.0.0" .major)) ∧
      (newVersionAdvisory "foo" "2.0.0" .major).part = some "major") :=
  ⟨validate_major_wins nodeSemver "foo" "2.0.0" "1.9.9" false (by decide) (by decide),
   validate_major_wins nodeSemver "foo" "2.0.0" "1.5.0" false (by decide) (by decide)⟩

/-- C9 (the code at the failing input): `validate("foo", "1.3.0", "2.0.0", false)`
returns the "New minor version available" advisory although the stable version
`1.3.0` is not newer than the required version `2.0.0`: `getMessage("minor")`
compares the minor components without looking at the major ones. -/
theorem validate_advisory_for_older_stable :
    isValidVersion nodeSemver "1.3.0" = true ∧
    isValidVersion nodeSemver "2.0.0" = true ∧
    strictlyNewer (componentsOf nodeSemver "1.3.0") (componentsOf nodeSemver "2.0.0") = false ∧
    validate nodeSemver "foo" "1.3.0" "2.0.0" false
      = .ok (some { part := some "minor",
                    message := "New minor version available for module \"foo\" (1.3.0)" }) := by
  refine ⟨by decide, by decide, by decide, by decide⟩

/-- C10: `validateRange(name, stable, requiredRange, false)` returns `null` if
and only if `semver.satisfies(stable, requiredRange)` is true, and otherwise
returns the "out of range" advisory, whose `part` is null; in particular
`validate("foo", "1.2.3", "^1.0.0", false)` is `null`. -/
theorem validateRange_unpinned (sv : Semver) (name : String) (stable : Option String)
    (requiredRange : String) :
    (validateRange sv name stable requiredRange false = none ↔
        sv.satisfies stable requiredRange = true) ∧
    (sv.satisfies stable requiredRange = false →
        validateRange sv name stable requiredRange false
            = some (outOfRangeAdvisory name requiredRange) ∧
          (outOfRangeAdvisory name requiredRange).part = none) ∧
    validate nodeSemver "foo" "1.2.3" "^1.0.0" false = .ok none := by
  refine ⟨?_, ?_, by decide⟩
  · cases h : sv.satisfies stable requiredRange <;> simp [validateRange, h]
  · intro h
    simp [validateRange, h, outOfRangeAdvisory]

/-! ## Lemmas for the behavioural claims -/

theorem validate_exact_some {sv : Semver} {name stableStr requiredStr : String}
    {mustBePinned : Bool} {a : Advisory} (hv : isValidVersion sv requiredStr = true)
    (h : validate sv name stableStr requiredStr mustBePinned = .ok (some a)) :
    ∃ p, a = newVersionAdvisory name stableStr p := by
  rw [validate_of_valid hv] at h
  have hM := @getMessage_exceeds sv name stableStr requiredStr .major
  have hm := @getMessage_exceeds sv name stableStr requiredStr .minor
  have hp := @getMessage_exceeds sv name stableStr requiredStr .patch
  rcases hgM : getMessage sv name stableStr requiredStr .major with e | (_ | x)
  · simp [hgM, orElse] at h
  · rcases hgm : getMessage sv name stableStr requiredStr .minor with e | (_ | x)
    · simp [hgM, hgm, orElse] at h
    · rcases hgp : getMessage sv name stableStr requiredStr .patch with e | (_ | x)
      · simp [hgM, hgm, hgp, orElse] at h
      · simp [hgM, hgm, hgp, orElse] at h
      · simp only [hgM, hgm, hgp, orElse, Except.ok.injEq, Option.some.injEq] at h
        subst h
        exact ⟨.patch, (hp.2 x hgp).2⟩
    · simp only [hgM, hgm, orElse, Except.ok.injEq, Option.some.injEq] at h
      subst h
      exact ⟨.minor, (hm.2 x hgm).2⟩
  · simp only [hgM, orElse, Except.ok.injEq, Option.some.injEq] at h
    subst h
    exact ⟨.major, (hM.2 x hgM).2⟩

theorem validate_exact_none {sv : Semver} {name stableStr requiredStr : String}
    {mustBePinned : Bool} (hv : isValidVersion sv requiredStr = true)
    (h : validate sv name stableStr requiredStr mustBePinned = .ok none) (p : Part) :
    ∃ a b, sv.component p stableStr = .ok a ∧ sv.component p requiredStr = .ok b ∧ a ≤ b := by
  rw [validate_of_valid hv] at h
  have key : ∀ q, getMessage sv name stableStr requiredStr q = .ok none →
      ∃ a b, sv.component q stableStr = .ok a ∧ sv.component q requiredStr = .ok b ∧ a ≤ b := by
    intro q hq
    unfold getMessage at hq
    cases hx : sv.component q stableStr with
    | error e => simp [hx] at hq
    | ok x =>
      cases hy : sv.component q requiredStr with
      | error e => simp [hx, hy] at hq
      | ok y =>
        by_cases hlt : y < x
        · simp [hx, hy, hlt] at hq
        · exact ⟨x, y, rfl, rfl, Nat.le_of_not_lt hlt⟩
  rcases hgM : getMessage sv name stableStr requiredStr .major with e | (_ | x)
  · simp [hgM, orElse] at h
  · rcases hgm : getMessage sv name stableStr requiredStr .minor with e | (_ | x)
    · simp [hgM, hgm, orElse] at h
    · rcases hgp : getMessage sv name stableStr requiredStr .patch with e | (_ | x)
      · simp [hgM, hgm, hgp, orElse] at h
      · cases p
        · exact key _ hgM
        · exact key _ hgm
        · exact key _ hgp
      · simp [hgM, hgm, hgp, orElse] at h
    · simp [hgM, hgm, orElse] at h
  · simp [hgM, orElse] at h

theorem validate_range_some {sv : Semver} {name stableStr requiredStr : String}
    {mustBePinned : Bool} {a : Advisory} (hv : isValidVersion sv requiredStr = false)
    (h : validate sv name stableStr requiredStr mustBePinned = .ok (some a)) :
    a.part = none := by
  rw [validate_of_not_valid hv] at h
  cases hr : isValidRange sv requiredStr with
  | false =>
    simp only [hr, Bool.false_eq_true, if_false, Except.ok.injEq, Option.some.injEq] at h
    subst h
    rfl
  | true =>
    simp only [hr, if_true, Except.ok.injEq] at h
    unfold validateRange at h
    split at h
    · simp only [Option.some.injEq] at h
      subst h
      rfl
    · split at h
      · simp only [Option.some.injEq] at h
        subst h
        rfl
      · cases h

theorem partOf_orElse {a b c d : Outcome} (h1 : partOf a = partOf c)
    (h2 : partOf b = partOf d) : partOf (orElse a b) = partOf (orElse c d) := by
  rcases a with e | (_ | x) <;> rcases c with e2 | (_ | y) <;>
    simp_all [partOf, orElse]

theorem partOf_getMessage (sv : Semver) (n1 n2 stableStr requiredStr : String) (p : Part) :
    partOf (getMessage sv n1 stableStr requiredStr p)
      = partOf (getMessage sv n2 stableStr requiredStr p) := by
  unfold getMessage
  cases sv.component p stableStr with
  | error e => rfl
  | ok x =>
    cases sv.component p requiredStr with
    | error e => rfl
    | ok y =>
      by_cases hlt : y < x
      · simp [hlt, partOf, newVersionAdvisory]
      · simp [hlt, partOf]

theorem partOf_validate (sv : Semver) (n1 n2 stableStr requiredStr : String)
    (mustBePinned : Bool) :
    partOf (validate sv n1 stableStr requiredStr mustBePinned)
      = partOf (validate sv n2 stableStr requiredStr mustBePinned) := by
  cases hv : isValidVersion sv requiredStr with
  | true =>
    rw [validate_of_valid hv, validate_of_valid hv]
    exact partOf_orElse
      (partOf_orElse
        (partOf_orElse (partOf_getMessage sv n1 n2 stableStr requiredStr .major)
          (partOf_getMessage sv n1 n2 stableStr requiredStr .minor))
        (partOf_getMessage sv n1 n2 stableStr requiredStr .patch))
      rfl
  | false =>
    rw [validate_of_not_valid hv, validate_of_not_valid hv]
    cases hr : isValidRange sv requiredStr with
    | false => simp [partOf, unparsableAdvisory]
    | true =>
      simp only [if_true]
      unfold validateRange
      cases mustBePinned <;>
        cases sv.satisfies (sv.valid stableStr) ((sv.validRange requiredStr).getD "") <;>
        simp [partOf, notPinnedAdvisory, outOfRangeAdvisory]

theorem partOf_eq_ok_none {o : Outcome} : partOf o = .ok none ↔ o = .ok none := by
  rcases o with e | (_ | x) <;> simp [partOf]

/-! ## Behavioural claims -/

/-- C11: every non-null result of `validate` has `part` in
`{null, "major", "minor", "patch"}`; its `part` is non-null exactly when
`requiredStr` is a valid exact version, so every advisory produced for a range
or an unparsable `requiredStr` has `part` null. -/
theorem validate_part_values (sv : Semver) (name stableStr requiredStr : String)
    (mustBePinned : Bool) (a : Advisory)
    (h : validate sv name stableStr requiredStr mustBePinned = .ok (some a)) :
    (a.part = none ∨ a.part = some "major" ∨ a.part = some "minor" ∨ a.part = some "patch") ∧
    (a.part ≠ none ↔ isValidVersion sv requiredStr = true) ∧
    (isValidVersion sv requiredStr = false → a.part = none) := by
  cases hv : isValidVersion sv requiredStr with
  | true =>
    obtain ⟨p, hp⟩ := validate_exact_some hv h
    subst hp
    cases p <;> simp [newVersionAdvisory, Part.name]
  | false =>
    have hnone := validate_range_some hv h
    simp [hnone]

theorem validate_part_values_witness :
    ((newVersionAdvisory "foo" "2.0.0" .major).part = none
        ∨ (newVersionAdvisory "foo" "2.0.0" .major).part = some "major"
        ∨ (newVersionAdvisory "foo" "2.0.0" .major).part = some "minor"
        ∨ (newVersionAdvisory "foo" "2.0.0" .major).part = some "patch") ∧
    ((newVersionAdvisory "foo" "2.0.0" .major).part ≠ none
        ↔ isValidVersion nodeSemver "1.5.0" = true) ∧
    (isValidVersion nodeSemver "1.5.0" = false
        → (newVersionAdvisory "foo" "2.0.0" .major).part = none) :=
  validate_part_values nodeSemver "foo" "2.0.0" "1.5.0" false
    (newVersionAdvisory "foo" "2.0.0" .major) (by decide)

/-- C12: when `requiredStr` is a valid exact version, or is not a valid range at
all, `validate(name, stableStr, requiredStr, true)` and
`validate(name, stableStr, requiredStr, false)` are equal (the same record, the
same `null`, or the same exception). -/
theorem validate_pinned_irrelevant (sv : Semver) (name stableStr requiredStr : String)
    (h : isValidVersion sv requiredStr = true ∨ isValidRange sv requiredStr = false) :
    validate sv name stableStr requiredStr true
      = validate sv name stableStr requiredStr false := by
  cases hv : isValidVersion sv requiredStr with
  | true => rw [validate_of_valid hv, validate_of_valid hv]
  | false =>
    have hr : isValidRange sv requiredStr = false := by
      rcases h with h | h
      · rw [hv] at h; cases h
      · exact h
    rw [validate_of_not_valid hv, validate_of_not_valid hv]
    simp [hr]

theorem validate_pinned_irrelevant_witness :
    validate nodeSemver "foo" "1.3.0" "1.2.0" true
        = validate nodeSemver "foo" "1.3.0" "1.2.0" false ∧
    validate nodeSemver "foo" "1.2.3" "git@github.com:x/y" true
        = validate nodeSemver "foo" "1.2.3" "git@github.com:x/y" false :=
  ⟨validate_pinned_irrelevant nodeSemver "foo" "1.3.0" "1.2.0" (Or.inl (by decide)),
   validate_pinned_irrelevant nodeSemver "foo" "1.2.3" "git@github.com:x/y"
     (Or.inr (by decide))⟩

/-- C13: for two valid exact versions `a` and `b`, if `validate(name, a, b, false)`
and `validate(name, b, a, false)` are both `null`, then `a` and `b` have the same
major, the same minor and the same patch component. -/
theorem validate_null_both_ways (sv : Semver) (name a b : String)
    (ha : isValidVersion sv a = true) (hb : isValidVersion sv b = true)
    (hab : validate sv name a b false = .ok none)
    (hba : validate sv name b a false = .ok none) :
    ∀ p, ∃ n, sv.component p a = .ok n ∧ sv.component p b = .ok n := by
  intro p
  obtain ⟨x, y, hx, hy, hxy⟩ := validate_exact_none hb hab p
  obtain ⟨y2, x2, hy2, hx2, hyx⟩ := validate_exact_none ha hba p
  rw [hy] at hy2
  rw [hx] at hx2
  cases hy2
  cases hx2
  have hxy2 : x = y := Nat.le_antisymm hxy hyx
  subst hxy2
  exact ⟨x, hx, hy⟩

theorem validate_null_both_ways_witness :
    (∃ n, nodeSemver.component .major "1.2.3" = .ok n ∧
      nodeSemver.component .major "v1.2.3" = .ok n) ∧
    (∃ n, nodeSemver.component .minor "1.2.3" = .ok n ∧
      nodeSemver.component .minor "v1.2.3" = .ok n) ∧
    (∃ n, nodeSemver.component .patch "1.2.3" = .ok n ∧
      nodeSemver.component .patch "v1.2.3" = .ok n) :=
  ⟨validate_null_both_ways nodeSemver "foo" "1.2.3" "v1.2.3"
     (by decide) (by decide) (by decide) (by decide) .major,
   validate_null_both_ways nodeSemver "foo" "1.2.3" "v1.2.3"
     (by decide) (by decide) (by decide) (by decide) .minor,
   validate_null_both_ways nodeSemver "foo" "1.2.3" "v1.2.3"
     (by decide) (by decide) (by decide) (by decide) .patch⟩

/-- C14: when `stableStr` is not a valid version (the parsed stable is `null`
and `semver.satisfies` rejects a `null` version) and `requiredStr` is a valid
range that is not an exact version, `validate` never returns `null`: it returns
the "is not pinned" advisory if `mustBePinned` is true and the "out of range"
advisory otherwise. -/
theorem validate_invalid_stable_range (sv : Semver) (name stableStr requiredStr range : String)
    (mustBePinned : Bool)
    (hstable : sv.valid stableStr = none) (hsat : ∀ r, sv.satisfies none r = false)
    (hv : isValidVersion sv requiredStr = false) (hr : isValidRange sv requiredStr = true)
    (hrange : sv.validRange requiredStr = some range) :
    validate sv name stableStr requiredStr mustBePinned ≠ .ok none ∧
    validate sv name stableStr requiredStr mustBePinned
      = .ok (some (if mustBePinned then notPinnedAdvisory name
                   else outOfRangeAdvisory name range)) := by
  rw [validate_of_not_valid hv]
  cases mustBePinned <;> simp [hr, hrange, hstable, hsat, validateRange]

theorem validate_invalid_stable_range_witness :
    (validate nodeSemver "foo" "1.2" "^1.0.0" true ≠ .ok none ∧
      validate nodeSemver "foo" "1.2" "^1.0.0" true
        = .ok (some (if true then notPinnedAdvisory "foo"
                     else outOfRangeAdvisory "foo" ">=1.0.0 <2.0.0"))) ∧
    (validate nodeSemver "foo" "1.2" "^1.0.0" false ≠ .ok none ∧
      validate nodeSemver "foo" "1.2" "^1.0.0" false
        = .ok (some (if false then notPinnedAdvisory "foo"
                     else outOfRangeAdvisory "foo" ">=1.0.0 <2.0.0"))) :=
  ⟨validate_invalid_stable_range nodeSemver "foo" "1.2" "^1.0.0" ">=1.0.0 <2.0.0" true
     (by decide) (fun _ => rfl) (by decide) (by decide) (by decide),
   validate_invalid_stable_range nodeSemver "foo" "1.2" "^1.0.0" ">=1.0.0 <2.0.0" false
     (by decide) (fun _ => rfl) (by decide) (by decide) (by decide)⟩

/-- C15: the dependency name only affects the text of the message: for two names
and all other inputs equal, `validate` is `null` for one if and only if it is
`null` for the other, when both results are advisories they have the same
`part`, and an exception is thrown for one exactly when the same exception is
thrown for the other. -/
theorem validate_name_independent (sv : Semver) (n1 n2 stableStr requiredStr : String)
    (mustBePinned : Bool) :
    (validate sv n1 stableStr requiredStr mustBePinned = .ok none ↔
        validate sv n2 stableStr requiredStr mustBePinned = .ok none) ∧
    (∀ a1 a2, validate sv n1 stableStr requiredStr mustBePinned = .ok (some a1) →
        validate sv n2 stableStr requiredStr mustBePinned = .ok (some a2) →
        a1.part = a2.part) ∧
    partOf (validate sv n1 stableStr requiredStr mustBePinned)
      = partOf (validate sv n2 stableStr requiredStr mustBePinned) := by
  have key := partOf_validate sv n1 n2 stableStr requiredStr mustBePinned
  refine ⟨?_, ?_, key⟩
  · rw [← partOf_eq_ok_none, key, partOf_eq_ok_none]
  · intro a1 a2 h1 h2
    rw [h1, h2] at key
    simpa [partOf] using key

end CheckDavid
